import Mathlib

/-!
Verification of the procedural floor-plan generator (`src/main.py`).

The core of the program is a two-stage pure pipeline:
  * `parse_program_from_prompt` : keyword/regex extraction of a housing
    program (bedrooms, bathrooms, office, open-plan, style) from free text;
  * `split_rooms` : partition of a rectangular footprint (width × depth)
    into rectangular rooms according to the extracted program.

The Python floats are modelled by exact rationals (ℚ); strings by Lean
`String` / `List Char`.  The loops of `split_rooms` (row-major bedroom
placement with an early `break`, a bathroom loop) are modelled by
structurally recursive functions that mirror the loop state (placed
count, running x/y offsets) exactly.
-/

namespace HouseGen

/-- Mirrors the pydantic `Room` model: `Room(name, x, y, z, width, depth, height)`. -/
structure Room where
  name : String
  x : ℚ
  y : ℚ
  z : ℚ
  width : ℚ
  depth : ℚ
  height : ℚ
deriving Repr, DecidableEq

/-- The dict returned by `parse_program_from_prompt`.  In the Python code
`office` is the integer 0 or 1 (used for truthiness), `open_plan` a bool,
`style` a string. -/
structure HousingProgram where
  bedrooms : ℕ
  bathrooms : ℕ
  office : ℕ
  open_plan : Bool
  style : String
deriving Repr, DecidableEq

/-! ### The program extractor (`parse_program_from_prompt`, main.py lines 96–119) -/

/-- Python `\s` (ASCII part): space, tab, newline, carriage return,
vertical tab, form feed. -/
def isSpaceChar (c : Char) : Bool :=
  c == ' ' || c == '\t' || c == '\n' || c == '\r' || c == Char.ofNat 11 || c == Char.ofNat 12

/-- Value of a decimal digit string, as `int(...)` computes it. -/
def digitsToNat (ds : List Char) : ℕ :=
  ds.foldl (fun a c => 10 * a + (c.toNat - 48)) 0

/-- Try to match the regex `(\d+)\s*kw` at the start of `cs`, returning the
value of the captured digit group.  Since `kw` ("bed"/"bath") begins with a
letter, the greedy maximal-munch of `\d+` and `\s*` is exact: any match must
consume the whole digit run and the whole whitespace run. -/
def matchNumAt (kw : String) (cs : List Char) : Option ℕ :=
  let ds := cs.takeWhile Char.isDigit
  if ds.isEmpty then none
  else
    let rest := (cs.drop ds.length).dropWhile isSpaceChar
    if kw.data.isPrefixOf rest then some (digitsToNat ds) else none

/-- `re.search(r"(\d+)\s*kw", text)`: leftmost match wins. -/
def searchNum (kw : String) : List Char → Option ℕ
  | [] => none
  | c :: cs =>
    match matchNumAt kw (c :: cs) with
    | some n => some n
    | none => searchNum kw cs

/-- `find_num(keyword, default)` from the source. -/
def find_num (kw : String) (defaultVal : ℕ) (text : List Char) : ℕ :=
  match searchNum kw text with
  | some n => n
  | none => defaultVal

/-- Python's `needle in haystack` substring test. -/
def hasSubstr (needle : List Char) : List Char → Bool
  | [] => needle.isEmpty
  | c :: cs => needle.isPrefixOf (c :: cs) || hasSubstr needle (cs)

/-- `any(k in text for k in kws)`. -/
def hasAnyKw (kws : List String) (text : List Char) : Bool :=
  kws.any (fun k => hasSubstr k.data text)

/-- `parse_program_from_prompt` (main.py lines 96–119), faithfully:
lower-case the prompt, regex-extract bedroom/bathroom counts with clamping,
keyword flags for office / open-plan / style. -/
def parse_program_from_prompt (prompt : String) : HousingProgram :=
  let text := prompt.data.map Char.toLower
  { bedrooms := max 1 (min 6 (find_num "bed" 3 text))
    bathrooms := max 1 (min 4 (find_num "bath" 2 text))
    office := if hasAnyKw ["office", "study", "workspace"] text then 1 else 0
    open_plan := hasAnyKw ["open plan", "open-plan", "open concept", "open layout"] text
    style :=
      if hasAnyKw ["modern", "contemporary", "minimal"] text then "modern"
      else if hasAnyKw ["traditional", "classic"] text then "traditional"
      else "neutral" }

/-! ### The footprint partitioner (`split_rooms`, main.py lines 122–184)

The Python function builds one list by successive appends; here each append
group is a separate definition and `split_rooms` concatenates them in the
same order.  Constants: `wall = 0.1`, `height = 3.0`. -/

def wall : ℚ := 1 / 10

def height : ℚ := 3

/-- `front_depth = depth * (0.45 if program["open_plan"] else 0.35)`. -/
def front_depth (depth : ℚ) (p : HousingProgram) : ℚ :=
  depth * (if p.open_plan then 9 / 20 else 7 / 20)

/-- The "Living" room (line 135). -/
def livingRoom (width depth : ℚ) (p : HousingProgram) : Room :=
  ⟨"Living", wall, wall, 0, width - 2 * wall, front_depth depth p - wall * 2, height⟩

/-- The "Kitchen" and "Dining" rooms (lines 139–148), in both the open-plan
and the non-open-plan branch. -/
def frontPair (width depth : ℚ) (p : HousingProgram) : List Room :=
  if p.open_plan then
    let k_w := (width - 3 * wall) * (4 / 10)
    [⟨"Kitchen", wall, wall, 0, k_w, front_depth depth p - 2 * wall, height⟩,
     ⟨"Dining", wall + k_w + wall, wall, 0, width - (k_w + 3 * wall),
       front_depth depth p - 2 * wall, height⟩]
  else
    let k_depth := front_depth depth p * (55 / 100)
    let kitchen : Room :=
      ⟨"Kitchen", wall, wall, 0, (width - 3 * wall) * (5 / 10), k_depth - wall, height⟩
    [kitchen,
     ⟨"Dining", wall + kitchen.width + wall, wall, 0, width - (kitchen.width + 3 * wall),
       k_depth - wall, height⟩]

/-- `remaining_depth = depth - front_depth - wall` (line 151). -/
def remaining_depth (depth : ℚ) (p : HousingProgram) : ℚ :=
  depth - front_depth depth p - wall

/-- `rows = max(1, bedrooms // 2)` (line 152). -/
def rowsOf (p : HousingProgram) : ℕ := max 1 (p.bedrooms / 2)

/-- `cols = 2 if bedrooms >= 2 else 1` (line 153). -/
def colsOf (p : HousingProgram) : ℕ := if 2 ≤ p.bedrooms then 2 else 1

/-- `cell_w = (width - (cols + 1)*wall) / cols` (line 154). -/
def cell_w (width : ℚ) (p : HousingProgram) : ℚ :=
  (width - ((colsOf p : ℚ) + 1) * wall) / (colsOf p : ℚ)

/-- `cell_d = (remaining_depth - (rows + 1)*wall) / rows if rows > 0 else remaining_depth`
(line 155). -/
def cell_d (depth : ℚ) (p : HousingProgram) : ℚ :=
  if 0 < rowsOf p then
    (remaining_depth depth p - ((rowsOf p : ℚ) + 1) * wall) / (rowsOf p : ℚ)
  else remaining_depth depth p

/-- One bedroom record as constructed at line 164
(`Room(name=f"Bedroom {placed_beds+1}", x=x0, y=y0, ...)`). -/
def mkBed (n : ℕ) (x0 y0 cw cd : ℚ) : Room :=
  ⟨"Bedroom " ++ toString n, x0, y0, 0, cw, cd, height⟩

/-- The inner `for c in range(cols)` loop (lines 161–167): state is the
running `x0` and the count `placed` of bedrooms placed so far; the
`break` on `placed >= bedrooms` ends the loop. -/
def bedCells : ℕ → ℕ → ℕ → ℚ → ℚ → ℚ → ℚ → List Room
  | 0, _, _, _, _, _, _ => []
  | c + 1, placed, bedrooms, x0, y0, cw, cd =>
    if bedrooms ≤ placed then []
    else mkBed (placed + 1) x0 y0 cw cd :: bedCells c (placed + 1) bedrooms (x0 + cw + wall) y0 cw cd

/-- The outer `for r in range(rows)` loop (lines 159–168): each row starts
at `x0 = wall`, then `y0` advances by `cell_d + wall`. -/
def bedRows : ℕ → ℕ → ℕ → ℕ → ℚ → ℚ → ℚ → List Room
  | 0, _, _, _, _, _, _ => []
  | r + 1, placed, bedrooms, cols, y0, cw, cd =>
    let row := bedCells cols placed bedrooms wall y0 cw cd
    row ++ bedRows r (placed + row.length) bedrooms cols (y0 + cd + wall) cw cd

/-- All bedroom rooms: the nested loop with `placed_beds = 0`,
`y0 = front_depth + wall` initially (lines 157–168). -/
def bedroomRooms (width depth : ℚ) (p : HousingProgram) : List Room :=
  bedRows (rowsOf p) 0 p.bedrooms (colsOf p) (front_depth depth p + wall)
    (cell_w width p) (cell_d depth p)

/-- The bathroom loop (lines 171–176): `b_w`/`b_d` are loop-invariant,
`by` advances by `b_d + wall` per index. -/
def bathRooms (width depth : ℚ) (p : HousingProgram) : List Room :=
  (List.range p.bathrooms).map (fun i =>
    let b_w := min (22 / 10) (cell_w width p * (6 / 10))
    let b_d := min (24 / 10) (wall + cell_d depth p * (6 / 10))
    ⟨"Bath " ++ toString (i + 1 : ℕ), width - b_w - wall,
      front_depth depth p + wall + (i : ℚ) * (b_d + wall), 0, b_w, b_d, height⟩)

/-- The optional office (lines 179–182); `if program["office"]` is Python
integer truthiness. -/
def officeRooms (width depth : ℚ) (p : HousingProgram) : List Room :=
  if p.office ≠ 0 then
    let o_w := min 3 ((width - 3 * wall) * (35 / 100))
    let o_d := min 3 ((front_depth depth p - 3 * wall) * (7 / 10))
    [⟨"Office", width - o_w - wall, wall, 0, o_w, o_d, height⟩]
  else []

/-- `split_rooms(width, depth, program)` (main.py lines 122–184): the rooms
in append order — Living, Kitchen, Dining, bedrooms, bathrooms, office. -/
def split_rooms (width depth : ℚ) (p : HousingProgram) : List Room :=
  livingRoom width depth p ::
    (frontPair width depth p ++ bedroomRooms width depth p ++
      bathRooms width depth p ++ officeRooms width depth p)

/-! ### The endpoint (`generate_layout`, main.py lines 187–196) -/

/-- The `GenerationResponse` payload: footprint dict, room list, meta dict. -/
structure GenerationResponse where
  footprint_width : ℚ
  footprint_depth : ℚ
  footprint_height : ℚ
  rooms : List Room
  meta_program : HousingProgram
  meta_note : String
deriving Repr, DecidableEq

/-- `generate_layout` (lines 187–196): extract the program from the prompt,
partition the footprint, package the response.  The `floors` request field
is accepted but never read. -/
def generate_layout (prompt : String) (width depth : ℚ) (floors : ℕ) : GenerationResponse :=
  let program := parse_program_from_prompt prompt
  let rooms := split_rooms width depth program
  ⟨width, depth, 3, rooms, program,
    "Procedurally generated layout (conceptual). Units in meters."⟩

/-! ### Validity predicates (the boundary contract of §6 of the design) -/

/-- `4 < width < 200` and `4 < depth < 200` (the pydantic field constraints). -/
def validDims (width depth : ℚ) : Prop :=
  4 < width ∧ width < 200 ∧ 4 < depth ∧ depth < 200

/-- A valid `HousingProgram`: bedrooms ∈ [1,6], bathrooms ∈ [1,4]
(exactly the clamped ranges the extractor produces). -/
def validProgram (p : HousingProgram) : Prop :=
  1 ≤ p.bedrooms ∧ p.bedrooms ≤ 6 ∧ 1 ≤ p.bathrooms ∧ p.bathrooms ≤ 4

instance : DecidablePred (fun p => validProgram p) := fun _ => by
  unfold validProgram; infer_instance

/-- Two rooms overlap when their open (x,y) footprints intersect. -/
def overlaps (a b : Room) : Prop :=
  a.x < b.x + b.width ∧ b.x < a.x + a.width ∧ a.y < b.y + b.depth ∧ b.y < a.y + a.depth

instance (a b : Room) : Decidable (overlaps a b) := by
  unfold overlaps; infer_instance

/-- Rooms separated by at least the wall thickness along x or y. -/
def wallSeparated (a b : Room) : Prop :=
  a.x + a.width + wall ≤ b.x ∨ b.x + b.width + wall ≤ a.x ∨
  a.y + a.depth + wall ≤ b.y ∨ b.y + b.depth + wall ≤ a.y

instance (a b : Room) : Decidable (wallSeparated a b) := by
  unfold wallSeparated; infer_instance

/-- `inner` lies inside `outer` in the (x,y) plane. -/
def containedIn (inner outer : Room) : Prop :=
  outer.x ≤ inner.x ∧ inner.x + inner.width ≤ outer.x + outer.width ∧
  outer.y ≤ inner.y ∧ inner.y + inner.depth ≤ outer.y + outer.depth

instance (a b : Room) : Decidable (containedIn a b) := by
  unfold containedIn; infer_instance

instance (w d : ℚ) : Decidable (validDims w d) := by
  unfold validDims; infer_instance

end HouseGen

namespace HouseGen

/-! ### Structural lemmas about the partitioner -/

lemma data_append (s t : String) : (s ++ t).data = s.data ++ t.data := rfl

/-- Splitting membership in `split_rooms` into the five append groups. -/
lemma mem_split_cases {w d : ℚ} {p : HousingProgram} {r : Room}
    (h : r ∈ split_rooms w d p) :
    r = livingRoom w d p ∨ r ∈ frontPair w d p ∨ r ∈ bedroomRooms w d p ∨
      r ∈ bathRooms w d p ∨ r ∈ officeRooms w d p := by
  simp only [split_rooms, List.mem_cons, List.mem_append] at h
  tauto

/-- Every room produced by the inner bedroom loop is a bedroom cell `c`
of the current row: `c` steps of `cell_w + wall` from the row start. -/
lemma bedCells_mem {cols placed b : ℕ} {x0 y0 cw cd : ℚ} {r : Room}
    (h : r ∈ bedCells cols placed b x0 y0 cw cd) :
    ∃ c : ℕ, c < cols ∧ placed + c < b ∧
      r = mkBed (placed + c + 1) (x0 + c * (cw + wall)) y0 cw cd := by
  induction cols generalizing placed x0 with
  | zero => simp [bedCells] at h
  | succ n ih =>
    rw [bedCells] at h
    by_cases hb : b ≤ placed
    · simp [hb] at h
    · rw [if_neg hb] at h
      rcases List.mem_cons.mp h with rfl | h2
      · refine ⟨0, Nat.succ_pos n, by omega, ?_⟩
        have hx : x0 = x0 + ((0 : ℕ) : ℚ) * (cw + wall) := by push_cast; ring
        rw [← hx]
      · obtain ⟨c, hc, hcb, rfl⟩ := ih h2
        refine ⟨c + 1, by omega, by omega, ?_⟩
        have h1 : placed + 1 + c = placed + (c + 1) := by omega
        have h2 : x0 + cw + wall + (c : ℚ) * (cw + wall) =
            x0 + ((c + 1 : ℕ) : ℚ) * (cw + wall) := by push_cast; ring
        rw [h1, h2]

/-- The inner loop places `min cols (bedrooms - placed)` rooms. -/
lemma bedCells_length (cols : ℕ) : ∀ (placed b : ℕ) (x0 y0 cw cd : ℚ),
    (bedCells cols placed b x0 y0 cw cd).length = min cols (b - placed) := by
  induction cols with
  | zero => intro placed b x0 y0 cw cd; simp [bedCells]
  | succ n ih =>
    intro placed b x0 y0 cw cd
    rw [bedCells]
    by_cases hb : b ≤ placed
    · rw [if_pos hb]; simp; omega
    · rw [if_neg hb]; simp [ih]; omega

/-- Every room produced by the outer bedroom loop sits in grid cell
(`rr`, `cc`) and is the `placed + rr*cols + cc`-th bedroom overall. -/
lemma bedRows_mem {rows placed b cols : ℕ} {y0 cw cd : ℚ} {r : Room}
    (h : r ∈ bedRows rows placed b cols y0 cw cd) :
    ∃ rr cc : ℕ, rr < rows ∧ cc < cols ∧ placed + rr * cols + cc < b ∧
      r = mkBed (placed + rr * cols + cc + 1) (wall + cc * (cw + wall))
        (y0 + rr * (cd + wall)) cw cd := by
  induction rows generalizing placed y0 with
  | zero => simp [bedRows] at h
  | succ n ih =>
    rw [bedRows] at h
    rcases List.mem_append.mp h with h1 | h2
    · obtain ⟨c, hc, hcb, rfl⟩ := bedCells_mem h1
      refine ⟨0, c, Nat.succ_pos n, hc, by omega, ?_⟩
      have h1 : placed + 0 * cols + c = placed + c := by omega
      have h2 : y0 = y0 + ((0 : ℕ) : ℚ) * (cd + wall) := by push_cast; ring
      rw [h1, ← h2]
    · rw [bedCells_length] at h2
      obtain ⟨rr, cc, hrr, hcc, hb, rfl⟩ := ih h2
      have hmul : (rr + 1) * cols = rr * cols + cols := Nat.succ_mul rr cols
      have hfull : min cols (b - placed) = cols := by omega
      rw [hfull] at hb ⊢
      refine ⟨rr + 1, cc, by omega, hcc, by omega, ?_⟩
      have h1 : placed + cols + rr * cols + cc = placed + (rr + 1) * cols + cc := by omega
      have h2 : y0 + cd + wall + (rr : ℚ) * (cd + wall) =
          y0 + ((rr + 1 : ℕ) : ℚ) * (cd + wall) := by push_cast; ring
      rw [h1, h2]

/-- The grid loop places `min (rows*cols) (bedrooms - placed)` rooms in total. -/
lemma bedRows_length (rows : ℕ) : ∀ (placed b cols : ℕ) (y0 cw cd : ℚ),
    (bedRows rows placed b cols y0 cw cd).length = min (rows * cols) (b - placed) := by
  induction rows with
  | zero => intro placed b cols y0 cw cd; simp [bedRows]
  | succ n ih =>
    intro placed b cols y0 cw cd
    rw [bedRows]
    simp only [List.length_append, bedCells_length, ih]
    have hmul : (n + 1) * cols = n * cols + cols := Nat.succ_mul n cols
    omega

lemma colsOf_bounds (p : HousingProgram) : 1 ≤ colsOf p ∧ colsOf p ≤ 2 := by
  unfold colsOf; split <;> omega

lemma rowsOf_bounds {p : HousingProgram} (hb : p.bedrooms ≤ 6) :
    1 ≤ rowsOf p ∧ rowsOf p ≤ 3 := by
  unfold rowsOf; omega

/-- The bedroom cell width is positive on the validated width range. -/
lemma cell_w_pos {w : ℚ} (hw : 4 < w) (p : HousingProgram) : 0 < cell_w w p := by
  obtain ⟨h1, h2⟩ := colsOf_bounds p
  unfold cell_w wall
  set c := colsOf p with hc
  interval_cases c <;> push_cast <;> norm_num <;> linarith

/-- The bedroom cell depth is positive on the validated depth range. -/
lemma cell_d_pos {d : ℚ} {p : HousingProgram} (hd : 4 < d) (hb : p.bedrooms ≤ 6) :
    0 < cell_d d p := by
  obtain ⟨h1, h2⟩ := rowsOf_bounds hb
  unfold cell_d remaining_depth front_depth wall
  rw [if_pos (by omega : 0 < rowsOf p)]
  set rws := rowsOf p with hr
  interval_cases rws <;> cases hop : p.open_plan <;>
    simp only [hop, if_true, if_false, Bool.false_eq_true] <;> push_cast <;> norm_num <;> linarith

/-- Every room emitted by `split_rooms` on a validated footprint and a
valid program has strictly positive width and depth. -/
lemma split_rooms_pos_dims {w d : ℚ} {p : HousingProgram} (hwd : validDims w d)
    (hp : validProgram p) : ∀ r ∈ split_rooms w d p, 0 < r.width ∧ 0 < r.depth := by
  obtain ⟨hw, hw2, hd, hd2⟩ := hwd
  obtain ⟨hb1, hb2, hba1, hba2⟩ := hp
  have hcw := cell_w_pos hw p
  have hcd := cell_d_pos hd hb2
  intro r hr
  rcases mem_split_cases hr with rfl | h | h | h | h
  · simp only [livingRoom, front_depth, wall]
    cases hop : p.open_plan <;> simp only [hop, if_true, if_false, Bool.false_eq_true] <;>
      exact ⟨by linarith, by linarith⟩
  · cases hop : p.open_plan
    · simp only [frontPair, hop, Bool.false_eq_true, if_false, List.mem_cons,
        List.not_mem_nil, or_false] at h
      rcases h with rfl | rfl <;>
        simp only [front_depth, hop, Bool.false_eq_true, if_false, wall] <;>
        exact ⟨by linarith, by linarith⟩
    · simp only [frontPair, hop, if_true, List.mem_cons, List.not_mem_nil, or_false] at h
      rcases h with rfl | rfl <;>
        simp only [front_depth, hop, if_true, wall] <;>
        exact ⟨by linarith, by linarith⟩
  · rw [bedroomRooms] at h
    obtain ⟨rr, cc, _, _, _, rfl⟩ := bedRows_mem h
    exact ⟨hcw, hcd⟩
  · simp only [bathRooms, List.mem_map, List.mem_range] at h
    obtain ⟨i, _, rfl⟩ := h
    constructor
    · exact lt_min (by norm_num) (mul_pos hcw (by norm_num))
    · refine lt_min (by norm_num) ?_
      have h6 : 0 < cell_d d p * (6 / 10) := mul_pos hcd (by norm_num)
      rw [wall]; linarith
  · by_cases ho : p.office ≠ 0
    · rw [officeRooms, if_pos ho] at h
      simp only [List.mem_cons, List.not_mem_nil, or_false] at h
      subst h
      constructor
      · refine lt_min (by norm_num) ?_
        rw [wall]; nlinarith
      · refine lt_min (by norm_num) ?_
        simp only [front_depth, wall]
        cases hop : p.open_plan <;> simp only [hop, if_true, if_false, Bool.false_eq_true] <;>
          nlinarith
    · simp [officeRooms, ho] at h

/-- Every room emitted by `split_rooms` has `z = 0`. -/
lemma split_rooms_z_zero (w d : ℚ) (p : HousingProgram) :
    ∀ r ∈ split_rooms w d p, r.z = 0 := by
  intro r hr
  rcases mem_split_cases hr with rfl | h | h | h | h
  · rfl
  · cases hop : p.open_plan <;>
      simp only [frontPair, hop, if_true, if_false, Bool.false_eq_true, List.mem_cons,
        List.not_mem_nil, or_false] at h <;>
      rcases h with rfl | rfl <;> rfl
  · rw [bedroomRooms] at h
    obtain ⟨_, _, _, _, _, rfl⟩ := bedRows_mem h
    rfl
  · simp only [bathRooms, List.mem_map, List.mem_range] at h
    obtain ⟨i, _, rfl⟩ := h
    rfl
  · by_cases ho : p.office ≠ 0
    · rw [officeRooms, if_pos ho] at h
      simp only [List.mem_cons, List.not_mem_nil, or_false] at h
      subst h; rfl
    · simp [officeRooms, ho] at h

/-! ### Claims -/

/-- C6: the extractor applied to the empty string returns exactly the
defaults: bedrooms=3, bathrooms=2, office=0 (false), open_plan=false,
style="neutral". -/
theorem extractor_empty_string_defaults :
    parse_program_from_prompt "" = ⟨3, 2, 0, false, "neutral"⟩ := by
  decide

/-- C4: on the prompt "A modern 2 bedroom, 1 bathroom house with an
open-plan kitchen and a home office" the extractor returns
{bedrooms:2, bathrooms:1, office:1, open_plan:true, style:"modern"}, and
`split_rooms` at width=14, depth=9 on that program yields exactly the rooms
Living, Kitchen, Dining, Bedroom 1, Bedroom 2, Bath 1, Office — one
Kitchen, one Dining, two bedrooms, one Bath 1, one Office, one Living,
7 rooms in total. -/
theorem end_to_end_scenario :
    parse_program_from_prompt
        "A modern 2 bedroom, 1 bathroom house with an open-plan kitchen and a home office" =
      ⟨2, 1, 1, true, "modern"⟩ ∧
    (split_rooms 14 9
        (parse_program_from_prompt
          "A modern 2 bedroom, 1 bathroom house with an open-plan kitchen and a home office")).map
        Room.name =
      ["Living", "Kitchen", "Dining", "Bedroom 1", "Bedroom 2", "Bath 1", "Office"] ∧
    (split_rooms 14 9
        (parse_program_from_prompt
          "A modern 2 bedroom, 1 bathroom house with an open-plan kitchen and a home office")).length =
      7 := by
  refine ⟨by decide, by decide, by decide⟩

/-- C2 (failing input): for the program {bedrooms:3, bathrooms:1, office:1,
open_plan:false} at width=12, depth=10, `split_rooms` returns only SEVEN
rooms and no "Bedroom 3": `rows = max(1, 3 // 2) = 1` and `cols = 2` give
the bedroom grid only two cells, so the third requested bedroom is never
placed — contradicting the claimed count `3 + bedrooms + bathrooms + office
= 8` and the claimed name sequence ending "..., Bedroom 3, Bath 1, Office". -/
theorem split_rooms_drops_third_bedroom :
    (split_rooms 12 10 ⟨3, 1, 1, false, "neutral"⟩).map Room.name =
      ["Living", "Kitchen", "Dining", "Bedroom 1", "Bedroom 2", "Bath 1", "Office"] ∧
    (split_rooms 12 10 ⟨3, 1, 1, false, "neutral"⟩).length = 7 := by
  refine ⟨by decide, by decide⟩

/-- C1 (counterexample): at the valid input width=12, depth=10 with the
valid default program {bedrooms:3, bathrooms:2, office:0, open_plan:false},
the output of `split_rooms` contains the Living room and the Kitchen with
overlapping (x,y) footprints (the Kitchen sits inside the Living front
zone), and they are not separated by the wall thickness — refuting the
claimed no-overlap invariant. -/
theorem living_kitchen_overlap_counterexample :
    validDims 12 10 ∧ validProgram ⟨3, 2, 0, false, "neutral"⟩ ∧
    ∃ r1 ∈ split_rooms 12 10 ⟨3, 2, 0, false, "neutral"⟩,
      ∃ r2 ∈ split_rooms 12 10 ⟨3, 2, 0, false, "neutral"⟩,
        r1.name = "Living" ∧ r2.name = "Kitchen" ∧
        overlaps r1 r2 ∧ ¬ wallSeparated r1 r2 := by
  refine ⟨by with_unfolding_all decide, by decide, by with_unfolding_all decide⟩

end HouseGen

namespace HouseGen

/-- C3 (counterexample to the claimed existence): there is NO valid input
(4<width<200, 4<depth<200, bedrooms 1–6, bathrooms 1–4) for which
`split_rooms` emits a room of zero or negative width or depth: the fixed
ratio constants keep every dimension strictly positive on the whole
validated domain. -/
theorem degenerate_dims_never_occur :
    ¬ ∃ w d : ℚ, ∃ p : HousingProgram, validDims w d ∧ validProgram p ∧
      ∃ r ∈ split_rooms w d p, r.width ≤ 0 ∨ r.depth ≤ 0 := by
  rintro ⟨w, d, p, hwd, hp, r, hr, hdeg⟩
  obtain ⟨h1, h2⟩ := split_rooms_pos_dims hwd hp r hr
  rcases hdeg with h | h <;> linarith

/-- C3 (amended): for every valid input and valid program, every room
returned by `split_rooms` has strictly positive width and depth — the
algorithm cannot produce degenerate geometry on its stated domain. -/
theorem split_rooms_dims_positive (w d : ℚ) (p : HousingProgram)
    (hwd : validDims w d) (hp : validProgram p) :
    ∀ r ∈ split_rooms w d p, 0 < r.width ∧ 0 < r.depth :=
  split_rooms_pos_dims hwd hp

/-- Witness for C3 (amended) at width=12, depth=10, default program,
on the Living room. -/
theorem split_rooms_dims_positive_witness :
    0 < (livingRoom 12 10 ⟨3, 2, 0, false, "neutral"⟩).width ∧
    0 < (livingRoom 12 10 ⟨3, 2, 0, false, "neutral"⟩).depth :=
  split_rooms_dims_positive 12 10 ⟨3, 2, 0, false, "neutral"⟩
    (by norm_num [validDims]) (by norm_num [validProgram])
    (livingRoom 12 10 ⟨3, 2, 0, false, "neutral"⟩)
    (by rw [split_rooms]; exact List.mem_cons_self _ _)

/-- C5: the extractor is total: for every string it returns a program with
bedrooms ∈ [1,6], bathrooms ∈ [1,4], office ∈ {0,1}, style among
modern/traditional/neutral (open_plan is a Bool by type); and the clamping
examples hold: "15 bed house" ↦ bedrooms=6, "0 bath" ↦ bathrooms=1. -/
theorem extractor_total_and_clamped :
    (∀ s : String,
      1 ≤ (parse_program_from_prompt s).bedrooms ∧
      (parse_program_from_prompt s).bedrooms ≤ 6 ∧
      1 ≤ (parse_program_from_prompt s).bathrooms ∧
      (parse_program_from_prompt s).bathrooms ≤ 4 ∧
      ((parse_program_from_prompt s).office = 0 ∨ (parse_program_from_prompt s).office = 1) ∧
      ((parse_program_from_prompt s).style = "modern" ∨
        (parse_program_from_prompt s).style = "traditional" ∨
        (parse_program_from_prompt s).style = "neutral")) ∧
    (parse_program_from_prompt "15 bed house").bedrooms = 6 ∧
    (parse_program_from_prompt "0 bath").bathrooms = 1 := by
  refine ⟨fun s => ?_, by decide, by decide⟩
  simp only [parse_program_from_prompt]
  refine ⟨by omega, by omega, by omega, by omega, ?_, ?_⟩
  · split_ifs <;> simp
  · split_ifs <;> simp

/-- C8: `split_rooms` is total on its stated domain: the grid divisors
`rows` and `cols` are strictly positive (so the cell-size divisions are
well defined), and a room list of the stated size is returned. -/
theorem split_rooms_total_on_domain (w d : ℚ) (p : HousingProgram)
    (hwd : validDims w d) (hp : validProgram p) :
    0 < rowsOf p ∧ 0 < colsOf p ∧
    (split_rooms w d p).length =
      3 + min (rowsOf p * colsOf p) p.bedrooms + p.bathrooms +
        (if p.office ≠ 0 then 1 else 0) := by
  have hr0 : 0 < rowsOf p := by unfold rowsOf; omega
  have hc0 : 0 < colsOf p := by have := colsOf_bounds p; omega
  refine ⟨hr0, hc0, ?_⟩
  rw [split_rooms]
  simp only [List.length_cons, List.length_append, bedroomRooms, bedRows_length,
    Nat.sub_zero, bathRooms, List.length_map, List.length_range]
  have hf : (frontPair w d p).length = 2 := by
    cases hop : p.open_plan <;> simp [frontPair, hop]
  have hof : (officeRooms w d p).length = if p.office ≠ 0 then 1 else 0 := by
    by_cases ho : p.office ≠ 0
    · rw [officeRooms, if_pos ho, if_pos ho]; rfl
    · rw [officeRooms, if_neg ho, if_neg ho]; rfl
  rw [hf, hof]
  by_cases ho : p.office ≠ 0
  · rw [if_pos ho]; omega
  · rw [if_neg ho]; omega

/-- Witness for C8 at width=12, depth=10, default program. -/
theorem split_rooms_total_on_domain_witness :
    0 < rowsOf ⟨3, 2, 0, false, "neutral"⟩ ∧ 0 < colsOf ⟨3, 2, 0, false, "neutral"⟩ ∧
    (split_rooms 12 10 ⟨3, 2, 0, false, "neutral"⟩).length =
      3 + min (rowsOf ⟨3, 2, 0, false, "neutral"⟩ * colsOf ⟨3, 2, 0, false, "neutral"⟩)
          (3 : ℕ) + 2 + (if (0 : ℕ) ≠ 0 then 1 else 0) :=
  split_rooms_total_on_domain 12 10 ⟨3, 2, 0, false, "neutral"⟩
    (by norm_num [validDims]) (by norm_num [validProgram])

/-- C9: the `floors` request field has no effect on the generated layout —
two generations differing only in `floors` (each within [1,3]) are
identical — and every room in the output has z = 0. -/
theorem floors_input_is_inert (prompt : String) (w d : ℚ) (f1 f2 : ℕ)
    (hwd : validDims w d) (hf1 : 1 ≤ f1 ∧ f1 ≤ 3) (hf2 : 1 ≤ f2 ∧ f2 ≤ 3) :
    generate_layout prompt w d f1 = generate_layout prompt w d f2 ∧
    ∀ r ∈ (generate_layout prompt w d f1).rooms, r.z = 0 := by
  refine ⟨rfl, ?_⟩
  intro r hr
  exact split_rooms_z_zero w d (parse_program_from_prompt prompt) r hr

/-- Witness for C9 at the empty prompt, width=12, depth=10, floors 1 vs 2. -/
theorem floors_input_is_inert_witness :
    generate_layout "" 12 10 1 = generate_layout "" 12 10 2 ∧
    ∀ r ∈ (generate_layout "" 12 10 1).rooms, r.z = 0 :=
  floors_input_is_inert "" 12 10 1 2 (by norm_num [validDims]) (by omega) (by omega)

end HouseGen

namespace HouseGen

/-- Distinguish strings by their first two characters; usable even when a
symbolic `toString n` tail blocks full evaluation. -/
lemma ne_of_take2 {s t : String} (h : s.data.take 2 ≠ t.data.take 2) : s ≠ t :=
  fun he => h (by rw [he])

lemma bed_take2 (n : ℕ) : ("Bedroom " ++ toString n).data.take 2 = ['B', 'e'] := rfl

lemma bath_take2 (n : ℕ) : ("Bath " ++ toString n).data.take 2 = ['B', 'a'] := rfl

/-- A generated bedroom name never equals a string that does not start "Be". -/
lemma bed_name_ne (n : ℕ) (t : String) (h : t.data.take 2 ≠ ['B', 'e']) :
    "Bedroom " ++ toString n ≠ t :=
  ne_of_take2 (by rw [bed_take2]; exact fun hh => h hh.symm)

/-- A generated bathroom name never equals a string that does not start "Ba". -/
lemma bath_name_ne (n : ℕ) (t : String) (h : t.data.take 2 ≠ ['B', 'a']) :
    "Bath " ++ toString n ≠ t :=
  ne_of_take2 (by rw [bath_take2]; exact fun hh => h hh.symm)

/-- C10: on every valid footprint, the Kitchen and the Dining room emitted
by `split_rooms` (in either branch) lie inside the Living room's (x,y)
rectangle: the front zone is shared with Living, not subdivided away. -/
theorem kitchen_dining_contained_in_living (w d : ℚ) (p : HousingProgram)
    (hwd : validDims w d) :
    livingRoom w d p ∈ split_rooms w d p ∧ (livingRoom w d p).name = "Living" ∧
    ∀ r ∈ split_rooms w d p, r.name = "Kitchen" ∨ r.name = "Dining" →
      containedIn r (livingRoom w d p) := by
  obtain ⟨hw, hw2, hd, hd2⟩ := hwd
  refine ⟨by rw [split_rooms]; exact List.mem_cons_self _ _, rfl, ?_⟩
  intro r hr hname
  rcases mem_split_cases hr with rfl | h | h | h | h
  · rcases hname with h | h
    · exact absurd (show ("Living" : String) = "Kitchen" from h) (by decide)
    · exact absurd (show ("Living" : String) = "Dining" from h) (by decide)
  · cases hop : p.open_plan
    · simp only [frontPair, hop, Bool.false_eq_true, if_false, List.mem_cons,
        List.not_mem_nil, or_false] at h
      rcases h with rfl | rfl <;>
        · simp only [containedIn, livingRoom, front_depth, hop, Bool.false_eq_true,
            if_false, wall]
          refine ⟨by linarith, by linarith, by linarith, by linarith⟩
    · simp only [frontPair, hop, if_true, List.mem_cons, List.not_mem_nil, or_false] at h
      rcases h with rfl | rfl <;>
        · simp only [containedIn, livingRoom, front_depth, hop, if_true, wall]
          refine ⟨by linarith, by linarith, by linarith, by linarith⟩
  · rw [bedroomRooms] at h
    obtain ⟨rr, cc, _, _, _, rfl⟩ := bedRows_mem h
    rcases hname with h | h
    · exact absurd h (bed_name_ne _ "Kitchen" (by decide))
    · exact absurd h (bed_name_ne _ "Dining" (by decide))
  · simp only [bathRooms, List.mem_map, List.mem_range] at h
    obtain ⟨i, _, rfl⟩ := h
    rcases hname with h | h
    · exact absurd h (bath_name_ne (i + 1) "Kitchen" (by decide))
    · exact absurd h (bath_name_ne (i + 1) "Dining" (by decide))
  · by_cases ho : p.office ≠ 0
    · rw [officeRooms, if_pos ho] at h
      simp only [List.mem_cons, List.not_mem_nil, or_false] at h
      subst h
      rcases hname with h | h
      · exact absurd (show ("Office" : String) = "Kitchen" from h) (by decide)
      · exact absurd (show ("Office" : String) = "Dining" from h) (by decide)
    · simp [officeRooms, ho] at h

/-- Witness for C10 at width=12, depth=10 with the default program. -/
theorem kitchen_dining_contained_in_living_witness :
    livingRoom 12 10 ⟨3, 2, 0, false, "neutral"⟩ ∈
      split_rooms 12 10 ⟨3, 2, 0, false, "neutral"⟩ ∧
    (livingRoom 12 10 ⟨3, 2, 0, false, "neutral"⟩).name = "Living" ∧
    ∀ r ∈ split_rooms 12 10 ⟨3, 2, 0, false, "neutral"⟩,
      r.name = "Kitchen" ∨ r.name = "Dining" →
        containedIn r (livingRoom 12 10 ⟨3, 2, 0, false, "neutral"⟩) :=
  kitchen_dining_contained_in_living 12 10 ⟨3, 2, 0, false, "neutral"⟩
    (by norm_num [validDims])

/-- C7: at width=12, depth=10 with bedrooms=3, bathrooms=2,
open_plan=false (office and style arbitrary), every room returned by
`split_rooms` lies inside the footprint. -/
theorem rooms_inside_footprint_12_10 (office : ℕ) (style : String) :
    ∀ r ∈ split_rooms 12 10 ⟨3, 2, office, false, style⟩,
      0 ≤ r.x ∧ 0 ≤ r.y ∧ r.x + r.width ≤ 12 ∧ r.y + r.depth ≤ 10 := by
  intro r hr
  rcases mem_split_cases hr with rfl | h | h | h | h
  · refine ⟨?_, ?_, ?_, ?_⟩ <;> norm_num [livingRoom, front_depth, wall]
  · simp only [frontPair, Bool.false_eq_true, if_false, List.mem_cons,
      List.not_mem_nil, or_false] at h
    rcases h with rfl | rfl <;> refine ⟨?_, ?_, ?_, ?_⟩ <;>
      norm_num [front_depth, wall]
  · rw [bedroomRooms] at h
    obtain ⟨rr, cc, hrr, hcc, hk, rfl⟩ := bedRows_mem h
    have hrow : rowsOf ⟨3, 2, office, false, style⟩ = 1 := by simp [rowsOf]
    have hcol : colsOf ⟨3, 2, office, false, style⟩ = 2 := by simp [colsOf]
    have hrr1 : rr < 1 := by omega
    have hcc1 : cc < 2 := by omega
    have hrr0 : rr = 0 := by omega
    subst hrr0
    interval_cases cc <;> refine ⟨?_, ?_, ?_, ?_⟩ <;>
      norm_num [mkBed, cell_w, cell_d, colsOf, rowsOf, remaining_depth, front_depth, wall]
  · simp only [bathRooms, List.mem_map, List.mem_range] at h
    obtain ⟨i, hi, rfl⟩ := h
    have hi2 : i < 2 := hi
    interval_cases i <;> refine ⟨?_, ?_, ?_, ?_⟩ <;>
      norm_num [cell_w, cell_d, colsOf, rowsOf, remaining_depth, front_depth, wall, min_def]
  · by_cases ho : office ≠ 0
    · rw [officeRooms, if_pos ho] at h
      simp only [List.mem_cons, List.not_mem_nil, or_false] at h
      subst h
      refine ⟨?_, ?_, ?_, ?_⟩ <;> norm_num [front_depth, wall, min_def]
    · simp [officeRooms, ho] at h

/-- Witness for C7 on the Living room with office=0. -/
theorem rooms_inside_footprint_12_10_witness :
    0 ≤ (livingRoom 12 10 ⟨3, 2, 0, false, "neutral"⟩).x ∧
    0 ≤ (livingRoom 12 10 ⟨3, 2, 0, false, "neutral"⟩).y ∧
    (livingRoom 12 10 ⟨3, 2, 0, false, "neutral"⟩).x +
      (livingRoom 12 10 ⟨3, 2, 0, false, "neutral"⟩).width ≤ 12 ∧
    (livingRoom 12 10 ⟨3, 2, 0, false, "neutral"⟩).y +
      (livingRoom 12 10 ⟨3, 2, 0, false, "neutral"⟩).depth ≤ 10 :=
  rooms_inside_footprint_12_10 0 "neutral" (livingRoom 12 10 ⟨3, 2, 0, false, "neutral"⟩)
    (by rw [split_rooms]; exact List.mem_cons_self _ _)

end HouseGen

namespace HouseGen

/-- Wall separation (with the positive wall constant) excludes overlap. -/
lemma wallSeparated_not_overlaps {a b : Room} (h : wallSeparated a b) : ¬ overlaps a b := by
  rw [wallSeparated, wall] at h
  rintro ⟨h1, h2, h3, h4⟩
  rcases h with h | h | h | h <;> linarith

/-- A room of `split_rooms` carrying a generated bedroom name comes from
the bedroom grid: no other append group uses such a name. -/
lemma bedroom_named_mem {w d : ℚ} {p : HousingProgram} {r : Room}
    (hr : r ∈ split_rooms w d p) (hname : ∃ n : ℕ, r.name = "Bedroom " ++ toString n) :
    r ∈ bedroomRooms w d p := by
  obtain ⟨n, hn⟩ := hname
  rcases mem_split_cases hr with rfl | h | h | h | h
  · exact absurd hn.symm (bed_name_ne n "Living" (by decide))
  · cases hop : p.open_plan
    · simp only [frontPair, hop, Bool.false_eq_true, if_false, List.mem_cons,
        List.not_mem_nil, or_false] at h
      rcases h with rfl | rfl
      · exact absurd hn.symm (bed_name_ne n "Kitchen" (by decide))
      · exact absurd hn.symm (bed_name_ne n "Dining" (by decide))
    · simp only [frontPair, hop, if_true, List.mem_cons, List.not_mem_nil, or_false] at h
      rcases h with rfl | rfl
      · exact absurd hn.symm (bed_name_ne n "Kitchen" (by decide))
      · exact absurd hn.symm (bed_name_ne n "Dining" (by decide))
  · exact h
  · simp only [bathRooms, List.mem_map, List.mem_range] at h
    obtain ⟨i, _, rfl⟩ := h
    exact absurd hn (bath_name_ne (i + 1) ("Bedroom " ++ toString n) (by rw [bed_take2]; decide))
  · by_cases ho : p.office ≠ 0
    · rw [officeRooms, if_pos ho] at h
      simp only [List.mem_cons, List.not_mem_nil, or_false] at h
      subst h
      exact absurd hn.symm (bed_name_ne n "Office" (by decide))
    · simp [officeRooms, ho] at h

/-- Two differently named rooms of the bedroom grid are separated by the
wall thickness along x (different columns) or y (different rows). -/
lemma bedrooms_separated_core {w d : ℚ} {p : HousingProgram}
    (hcw : 0 < cell_w w p) (hcd : 0 < cell_d d p) {r1 r2 : Room}
    (h1 : r1 ∈ bedroomRooms w d p) (h2 : r2 ∈ bedroomRooms w d p)
    (hne : r1.name ≠ r2.name) : wallSeparated r1 r2 := by
  rw [bedroomRooms] at h1 h2
  obtain ⟨rr1, cc1, hrr1, hcc1, hk1, rfl⟩ := bedRows_mem h1
  obtain ⟨rr2, cc2, hrr2, hcc2, hk2, rfl⟩ := bedRows_mem h2
  have hwall : (0 : ℚ) < wall := by rw [wall]; norm_num
  have hkne : 0 + rr1 * colsOf p + cc1 ≠ 0 + rr2 * colsOf p + cc2 := by
    intro hEq
    apply hne
    have hidx : 0 + rr1 * colsOf p + cc1 + 1 = 0 + rr2 * colsOf p + cc2 + 1 := by omega
    exact congrArg (fun k => "Bedroom " ++ toString k) hidx
  have hcwall : (0 : ℚ) < cell_w w p + wall := by linarith
  have hcdall : (0 : ℚ) < cell_d d p + wall := by linarith
  rw [wallSeparated, mkBed, mkBed]
  dsimp only
  by_cases hr : rr1 = rr2
  · subst hr
    have hccne : cc1 ≠ cc2 := by omega
    rcases Nat.lt_or_ge cc1 cc2 with hlt | hge
    · left
      have hle : (cc1 : ℚ) + 1 ≤ (cc2 : ℚ) := by exact_mod_cast hlt
      have key : (cc1 : ℚ) * (cell_w w p + wall) + (cell_w w p + wall) ≤
          (cc2 : ℚ) * (cell_w w p + wall) := by nlinarith
      linarith
    · have hlt : cc2 < cc1 := by omega
      right; left
      have hle : (cc2 : ℚ) + 1 ≤ (cc1 : ℚ) := by exact_mod_cast hlt
      have key : (cc2 : ℚ) * (cell_w w p + wall) + (cell_w w p + wall) ≤
          (cc1 : ℚ) * (cell_w w p + wall) := by nlinarith
      linarith
  · rcases Nat.lt_or_ge rr1 rr2 with hlt | hge
    · right; right; left
      have hle : (rr1 : ℚ) + 1 ≤ (rr2 : ℚ) := by exact_mod_cast hlt
      have key : (rr1 : ℚ) * (cell_d d p + wall) + (cell_d d p + wall) ≤
          (rr2 : ℚ) * (cell_d d p + wall) := by nlinarith
      linarith
    · have hlt : rr2 < rr1 := by omega
      right; right; right
      have hle : (rr2 : ℚ) + 1 ≤ (rr1 : ℚ) := by exact_mod_cast hlt
      have key : (rr2 : ℚ) * (cell_d d p + wall) + (cell_d d p + wall) ≤
          (rr1 : ℚ) * (cell_d d p + wall) := by nlinarith
      linarith

/-- C1 (amended): the no-overlap/wall-separation invariant holds for the
BEDROOM rooms only: on every valid input, any two distinct bedroom rooms
returned by `split_rooms` are separated by the wall thickness and do not
overlap.  (It fails for the output as a whole: Kitchen/Dining share the
Living rectangle — see the counterexample.) -/
theorem bedrooms_pairwise_wall_separated (w d : ℚ) (p : HousingProgram)
    (hwd : validDims w d) (hp : validProgram p) :
    ∀ r1 ∈ split_rooms w d p, ∀ r2 ∈ split_rooms w d p,
      (∃ n : ℕ, r1.name = "Bedroom " ++ toString n) →
      (∃ m : ℕ, r2.name = "Bedroom " ++ toString m) →
      r1.name ≠ r2.name → wallSeparated r1 r2 ∧ ¬ overlaps r1 r2 := by
  intro r1 h1 r2 h2 hb1 hb2 hne
  obtain ⟨hw, hw2, hd, hd2⟩ := hwd
  obtain ⟨hbd1, hbd2, hba1, hba2⟩ := hp
  have hm1 := bedroom_named_mem h1 hb1
  have hm2 := bedroom_named_mem h2 hb2
  have hsep := bedrooms_separated_core (cell_w_pos hw p) (cell_d_pos hd hbd2) hm1 hm2 hne
  exact ⟨hsep, wallSeparated_not_overlaps hsep⟩

/-- Witness for C1 (amended): Bedroom 1 and Bedroom 2 at width=12,
depth=10 with the default program. -/
theorem bedrooms_pairwise_wall_separated_witness :
    wallSeparated ⟨"Bedroom 1", 1/10, 18/5, 0, 117/20, 31/5, 3⟩
        ⟨"Bedroom 2", 121/20, 18/5, 0, 117/20, 31/5, 3⟩ ∧
    ¬ overlaps ⟨"Bedroom 1", 1/10, 18/5, 0, 117/20, 31/5, 3⟩
        ⟨"Bedroom 2", 121/20, 18/5, 0, 117/20, 31/5, 3⟩ :=
  bedrooms_pairwise_wall_separated 12 10 ⟨3, 2, 0, false, "neutral"⟩
    (by norm_num [validDims]) (by norm_num [validProgram])
    ⟨"Bedroom 1", 1/10, 18/5, 0, 117/20, 31/5, 3⟩ (by with_unfolding_all decide)
    ⟨"Bedroom 2", 121/20, 18/5, 0, 117/20, 31/5, 3⟩ (by with_unfolding_all decide)
    ⟨1, by decide⟩ ⟨2, by decide⟩ (by decide)

end HouseGen
